import Mathlib

/-!
Verification of the Pantrifi server orchestration layer.

This file gives a shallow embedding, in Lean, of the control-flow cores of the
repository and proves the behavioural properties claimed of them:

* `GeminiAPIManager._try_single_key` / `generate_content`
  (ai_pipeline_workflow.py, lines 191-274): multi-credential failover with
  bounded per-credential retries and linear rate-limit backoff;
* `PantrifiScheduler.run_script_sequence` (scheduler.py, lines 169-257):
  halt-on-first-failure step sequencing with an attempted/succeeded summary;
* `PantrifiScheduler._get_time_from_user` / `run_scheduler_loop` / `start`
  (scheduler.py, lines 87-326): trigger-time resolution and daily rescheduling;
* `AIPipelineWorkflow.cleanup_user_folder` / `run_pipeline`
  (ai_pipeline_workflow.py, lines 678-722 and 871-882): retried folder
  teardown and the bounded end-of-cycle wait.

External effects (the remote API call, subprocess execution, the filesystem,
the wall clock) are modelled as explicit parameters: an environment function
gives the outcome of each individual effectful attempt, and the embedded
functions return, besides their result, the trace of observable events
(remote-call attempts and sleeps) that the original code would perform.
-/

/- ------------------------------------------------------------------ -/
/- FailoverClient: GeminiAPIManager (ai_pipeline_workflow.py 191-274) -/
/- ------------------------------------------------------------------ -/

/-- Constant `self.max_retries_per_key = 3` (ai_pipeline_workflow.py line 198). -/
def max_retries_per_key : Nat := 3

/-- Constant `self.retry_delay = 2` seconds (ai_pipeline_workflow.py line 199). -/
def retry_delay : Nat := 2

/-- Outcome of one call to `client.models.generate_content`: either a response
text, or an exception whose message string is recorded (the code classifies
errors by substring search on `str(error)`). -/
inductive AttemptResult where
  | success (text : String)
  | failure (errMsg : String)
deriving DecidableEq

/-- True when the attempt raised an exception. -/
def AttemptResult.isFailure : AttemptResult → Bool
  | .success _ => false
  | .failure _ => true

/-- Does the character list start with the given pattern? -/
def charsStartWith : List Char → List Char → Bool
  | _, [] => true
  | [], _ :: _ => false
  | c :: cs, d :: ds => c = d && charsStartWith cs ds

/-- Does the character list contain the given pattern as a contiguous
sublist?  This is Python's `pattern in string` on the underlying
characters. -/
def charsContain : List Char → List Char → Bool
  | [], pat => charsStartWith [] pat
  | c :: rest, pat => charsStartWith (c :: rest) pat || charsContain rest pat

/-- Rate-limit classification from ai_pipeline_workflow.py line 248:
`"429" in error_message or "RESOURCE_EXHAUSTED" in error_message`. -/
def isRateLimitError (msg : String) : Bool :=
  charsContain msg.data "429".data || charsContain msg.data "RESOURCE_EXHAUSTED".data

/-- Observable events of the failover client: a remote-call attempt
(key index, 0-based; attempt number, 1-based as in the source loop
`for attempt in range(1, self.max_retries_per_key + 1)`), or a
`time.sleep(seconds)`. -/
inductive ApiEvent where
  | attempt (keyIndex attemptNumber : Nat)
  | sleep (seconds : Nat)
deriving DecidableEq

/-- Loop body of `_try_single_key` (ai_pipeline_workflow.py lines 228-257).
`env keyIndex attemptNumber` is the outcome the remote call would have on that
attempt. The first argument of the recursion is the current (1-based) attempt
number, the second the number of loop iterations still to run; on entry they
are `1` and `max_retries_per_key`, so `0 < remaining` after the current
iteration is exactly the source guard `attempt < self.max_retries_per_key`.
Returns the value of the Python function (`response` or `None`) and the trace
of remote-call attempts and sleeps. -/
def trySingleKeyGo (env : Nat → Nat → AttemptResult) (keyIndex : Nat) :
    Nat → Nat → Option String × List ApiEvent
  | _, 0 => (none, [])
  | attemptNumber, remaining + 1 =>
    match env keyIndex attemptNumber with
    | .success text => (some text, [.attempt keyIndex attemptNumber])
    | .failure msg =>
      if 0 < remaining then
        let wait := if isRateLimitError msg then retry_delay * attemptNumber else 1
        let rest := trySingleKeyGo env keyIndex (attemptNumber + 1) remaining
        (rest.1, .attempt keyIndex attemptNumber :: .sleep wait :: rest.2)
      else
        (none, [.attempt keyIndex attemptNumber])

/-- `GeminiAPIManager._try_single_key` (ai_pipeline_workflow.py lines 223-257). -/
def trySingleKey (env : Nat → Nat → AttemptResult) (keyIndex : Nat) :
    Option String × List ApiEvent :=
  trySingleKeyGo env keyIndex 1 max_retries_per_key

/-- The data reported by the exception raised at ai_pipeline_workflow.py
line 274: `"All {len(self.api_keys)} API keys failed after
{self.max_retries_per_key} attempts each"`. -/
structure AllKeysFailed where
  totalKeys : Nat
  retriesPerKey : Nat
deriving DecidableEq

/-- The key loop of `generate_content` (ai_pipeline_workflow.py lines 263-274),
recursing over the list of key indices produced by
`range(len(self.api_keys))`. -/
def generateContentKeys (env : Nat → Nat → AttemptResult) (numKeys : Nat) :
    List Nat → Except AllKeysFailed String × List ApiEvent
  | [] => (.error ⟨numKeys, max_retries_per_key⟩, [])
  | k :: rest =>
    match trySingleKey env k with
    | (some text, evs) => (.ok text, evs)
    | (none, evs) =>
      let r := generateContentKeys env numKeys rest
      (r.1, evs ++ r.2)

/-- `GeminiAPIManager.generate_content` (ai_pipeline_workflow.py lines 259-274)
for a manager holding `numKeys` API keys. -/
def generate_content (env : Nat → Nat → AttemptResult) (numKeys : Nat) :
    Except AllKeysFailed String × List ApiEvent :=
  generateContentKeys env numKeys (List.range numKeys)

/-- The remote-call attempts of a trace, in order, as (key index, attempt
number) pairs; sleeps are not remote calls. -/
def attemptsOf : List ApiEvent → List (Nat × Nat)
  | [] => []
  | .attempt k a :: rest => (k, a) :: attemptsOf rest
  | .sleep _ :: rest => attemptsOf rest

/-- The attempt list produced by exhausting each listed key in order:
attempts 1, 2, 3 (= `max_retries_per_key`) on each key. -/
def fullAttemptList : List Nat → List (Nat × Nat)
  | [] => []
  | k :: rest => (k, 1) :: (k, 2) :: (k, 3) :: fullAttemptList rest

/- ------------------------------------------------------------------- -/
/- StepRunner: PantrifiScheduler.run_script_sequence (scheduler.py)    -/
/- ------------------------------------------------------------------- -/

/-- What happens when the scheduler reaches one step of the sequence:
the script file is missing (`not script_path.exists()`, scheduler.py line
188), `subprocess.run` completes with a return code (line 198/207), or
`subprocess.run` raises (`except Exception`, line 241). -/
inductive StepResult where
  | notFound
  | completed (returncode : Int)
  | crashed (errMsg : String)
deriving DecidableEq

/-- Is this step outcome one which makes the sequence halt
(missing script, nonzero return code, or a crash during invocation)? -/
def isFailingStep : StepResult → Bool
  | .notFound => true
  | .crashed _ => true
  | .completed rc => decide (rc ≠ 0)

/-- Was `subprocess.run` actually called for this step?  A missing script
halts the sequence before any invocation. -/
def stepInvoked : StepResult → Bool
  | .notFound => false
  | .completed _ => true
  | .crashed _ => true

/-- The execution summary printed at scheduler.py lines 246-257, together
with the list of 1-based indices of the steps whose scripts were actually
invoked (in invocation order). -/
structure RunSummary where
  attempted : Nat
  succeeded : Nat
  invoked : List Nat
deriving DecidableEq

/-- The failed-scripts counter of the summary:
`failed_count = scripts_attempted - success_count` (scheduler.py line 251). -/
def failedCount (s : RunSummary) : Nat := s.attempted - s.succeeded

/-- The `for i, script_name in enumerate(self.script_sequence, 1)` loop of
`run_script_sequence` (scheduler.py lines 183-244).  Arguments: the remaining
step outcomes, the 1-based index of the next step, the current values of
`scripts_attempted` and `success_count`, and the reversed accumulator of
invoked step indices.  `scripts_attempted = i` is set on entering an
iteration; `break` is modelled by returning the summary immediately. -/
def runSeqGo : List StepResult → Nat → Nat → Nat → List Nat → RunSummary
  | [], _, att, succ, inv => ⟨att, succ, inv.reverse⟩
  | s :: rest, i, _, succ, inv =>
    match s with
    | .notFound => ⟨i, succ, inv.reverse⟩
    | .crashed _ => ⟨i, succ, (i :: inv).reverse⟩
    | .completed rc =>
      if rc = 0 then runSeqGo rest (i + 1) i (succ + 1) (i :: inv)
      else ⟨i, succ, (i :: inv).reverse⟩

/-- `PantrifiScheduler.run_script_sequence` (scheduler.py lines 169-257),
given what each step of the sequence would do when reached. -/
def run_script_sequence (steps : List StepResult) : RunSummary :=
  runSeqGo steps 1 0 0 []

/- ------------------------------------------------------------------- -/
/- PipelineScheduler: trigger resolution and the daily loop            -/
/- ------------------------------------------------------------------- -/

/-- One day, in microseconds (`timedelta(days=1)`; Python datetimes have
microsecond resolution).  Instants are microseconds since the epoch. -/
def usPerDay : Int := 86400000000

/-- The instant `now.replace(hour=hour24, minute=minute, second=0,
microsecond=0)` (scheduler.py line 113): the start of the day containing
`now`, plus the configured time of day. -/
def triggerCandidate (now : Int) (hour24 minute : Nat) : Int :=
  (now / usPerDay) * usPerDay + ((hour24 * 3600 + minute * 60 : Nat) : Int) * 1000000

/-- Trigger resolution in `_get_time_from_user` (scheduler.py lines 112-116):
today at the entered time of day, pushed to tomorrow when that instant has
already passed (`if scheduled_time <= now: scheduled_time += timedelta(days=1)`). -/
def resolveTrigger (now : Int) (hour24 minute : Nat) : Int :=
  if triggerCandidate now hour24 minute ≤ now then triggerCandidate now hour24 minute + usPerDay
  else triggerCandidate now hour24 minute

/-- The two wall-clock observations relevant to one firing iteration of
`run_scheduler_loop` (scheduler.py lines 285-297): the time at the
`now >= scheduled_time` check, and the time when `run_script_sequence`
returns (so `timeAfterCycle - timeAtCheck` is the cycle duration). -/
structure LoopEvent where
  timeAtCheck : Int
  timeAfterCycle : Int
deriving DecidableEq

/-- The scheduled-time update performed by one iteration of the scheduler
loop (scheduler.py lines 288-293): when the check fires, the cycle runs and
then `scheduled_time += timedelta(days=1)`; otherwise the trigger is
unchanged.  Note the new trigger is computed from the old trigger only —
`e.timeAfterCycle` is not consulted. -/
def loopIterTrigger (sched : Int) (e : LoopEvent) : Int :=
  if sched ≤ e.timeAtCheck then sched + usPerDay else sched

/-- Result of `PantrifiScheduler.start` (scheduler.py lines 305-326): either
the scheduler enters its loop with a resolved trigger instant, or
`get_time_input` yielded nothing (cancelled input) and start returns after
printing "No time scheduled. Exiting." — a graceful exit, not an error. -/
inductive StartResult where
  | started (trigger : Int)
  | exitedNoSchedule
deriving DecidableEq

/-- `PantrifiScheduler.start` (scheduler.py lines 305-326).  The contents of
the persisted schedule_config.json file (written by
`ScheduleConfigurator.save_schedule_config`, schedule_config.py lines
132-149; `none` = file absent) are passed as a parameter to record the
observable fact that `start` never reads that file: the trigger time comes
exclusively from the interactive `get_time_input` dialog, modelled as the
optional (hour, minute) pair the user enters. -/
def schedulerStart (_persistedConfig : Option String)
    (userTime : Option (Nat × Nat)) (now : Int) : StartResult :=
  match userTime with
  | some hm => .started (resolveTrigger now hm.1 hm.2)
  | none => .exitedNoSchedule

/- ------------------------------------------------------------------- -/
/- CleanupExecutor: cleanup_user_folder and the end-of-cycle wait      -/
/- ------------------------------------------------------------------- -/

/-- Outcome of one `shutil.rmtree` call (ai_pipeline_workflow.py line 691):
success, a `PermissionError` (folder in use/locked), or any other
exception. -/
inductive RemoveOutcome where
  | removed
  | inUse (msg : String)
  | unexpected (msg : String)
deriving DecidableEq

/-- What one iteration of the cleanup retry loop observes: `path.exists()`
is false (nothing to do), or the path exists and the removal has the given
outcome. -/
inductive CleanupAttempt where
  | absent
  | present (out : RemoveOutcome)
deriving DecidableEq

/-- Observable events of `_cleanup_with_retry`: the 0.5-second quiesce
sleep before `rmtree` (line 689), the `rmtree` call on a given (0-based)
attempt, and the backoff sleep `time.sleep(delay)` (line 697). -/
inductive CleanupEvent where
  | settle
  | removeAttempt (n : Nat)
  | backoff (seconds : Nat)
deriving DecidableEq

/-- The `for attempt in range(max_retries)` loop of `_cleanup_with_retry`
(ai_pipeline_workflow.py lines 681-704).  Arguments: the per-attempt
observations, the current 0-based attempt number, the current `delay`
(initially 1, doubled after each retried `PermissionError`), and the number
of iterations still to run; `attempt < max_retries - 1` is exactly
`0 < remaining` after the current iteration. -/
def cleanupWithRetryGo (env : Nat → CleanupAttempt) :
    Nat → Nat → Nat → Bool × List CleanupEvent
  | _, _, 0 => (false, [])
  | attempt, delay, remaining + 1 =>
    match env attempt with
    | .absent => cleanupWithRetryGo env (attempt + 1) delay remaining
    | .present .removed => (true, [.settle, .removeAttempt attempt])
    | .present (.inUse _) =>
      if 0 < remaining then
        let rest := cleanupWithRetryGo env (attempt + 1) (delay * 2) remaining
        (rest.1, .settle :: .removeAttempt attempt :: .backoff delay :: rest.2)
      else
        (false, [.settle, .removeAttempt attempt])
    | .present (.unexpected _) => (false, [.settle, .removeAttempt attempt])

/-- `AIPipelineWorkflow.cleanup_user_folder` (ai_pipeline_workflow.py lines
678-706): `_cleanup_with_retry(folder_path, max_retries=3, delay=1)`. -/
def cleanup_user_folder (env : Nat → CleanupAttempt) : Bool × List CleanupEvent :=
  cleanupWithRetryGo env 0 1 3

/-- The per-task timeout of the end-of-cycle wait:
`future.result(timeout=30)` (ai_pipeline_workflow.py line 875). -/
def cleanupWaitTimeout : Nat := 30

/-- `future.result(timeout=30)` for a cleanup future whose remaining running
time, at the moment the wait starts, is `remaining` (`none` = the task never
finishes): the call blocks for `min remaining 30` time-units and reports
whether the task finished within the budget (`false` = it raised, e.g.
`TimeoutError`). -/
def futureResult (remaining : Option Nat) : Nat × Bool :=
  match remaining with
  | some t => if t ≤ cleanupWaitTimeout then (t, true) else (cleanupWaitTimeout, false)
  | none => (cleanupWaitTimeout, false)

/-- The wait loop over `cleanup_futures` (ai_pipeline_workflow.py lines
873-878): each future is waited on with `future.result(timeout=30)` inside a
`try`; success prints a completion line, any exception prints a WARNING and
the loop continues.  Returns (completed count, warning count). -/
def awaitCleanupGo : List (Option Nat) → Nat × Nat
  | [] => (0, 0)
  | t :: rest =>
    let r := futureResult t
    let acc := awaitCleanupGo rest
    if r.2 then (acc.1 + 1, acc.2) else (acc.1, acc.2 + 1)

/-- The observable end-of-pipeline state after the wait loop. -/
structure PipelineFinish where
  completedCount : Nat
  warningCount : Nat
  executorShutdown : Bool
  pipelineFailed : Bool
deriving DecidableEq

/-- The tail of `run_pipeline` (ai_pipeline_workflow.py lines 871-883): the
wait loop over all submitted cleanup futures, then unconditionally
`self.cleanup_executor.shutdown(wait=True)` and the success message — no
path in this code raises, so a timed-out cleanup can never become a pipeline
failure and the shutdown call is always reached. -/
def finishPipeline (tasks : List (Option Nat)) : PipelineFinish :=
  let acc := awaitCleanupGo tasks
  ⟨acc.1, acc.2, true, false⟩

/- ------------------------------------------------------------------- -/
/- Concrete environments used to instantiate the theorems below        -/
/- ------------------------------------------------------------------- -/

/-- A two-key scenario: key 0 fails every attempt with a rate-limit error,
any other key succeeds immediately. -/
def envFirstKeyDown : Nat → Nat → AttemptResult :=
  fun k _ => if k = 0 then .failure "429 quota exceeded" else .success "ok"

/-- Every attempt on every key fails (first attempt rate-limited, later
attempts with a generic server error). -/
def envEverythingDown : Nat → Nat → AttemptResult :=
  fun _ a => .failure (if a = 1 then "RESOURCE_EXHAUSTED" else "500 internal")

/-- Every attempt fails; the first with a rate-limited message, the rest
with a non-rate-limited one. -/
def envRetryMix : Nat → Nat → AttemptResult :=
  fun _ a => .failure (if a = 1 then "error 429" else "timeout")

/-- A cleanup target that is locked for the first two removal attempts and
is removed on the third. -/
def envCleanupBusyTwice : Nat → CleanupAttempt :=
  fun n => if n < 2 then .present (.inUse "folder busy") else .present .removed

/-- A cleanup target whose removal fails with a non-PermissionError
exception. -/
def envCleanupBroken : Nat → CleanupAttempt :=
  fun _ => .present (.unexpected "disk fell off")

/- ------------------------------------------------------------------- -/
/- Helper lemmas                                                       -/
/- ------------------------------------------------------------------- -/

lemma attemptsOf_append (l l' : List ApiEvent) :
    attemptsOf (l ++ l') = attemptsOf l ++ attemptsOf l' := by
  induction l with
  | nil => rfl
  | cons e rest ih => cases e <;> simp [attemptsOf, ih]

lemma failure_exists {r : AttemptResult} (h : r.isFailure = true) :
    ∃ m, r = .failure m := by
  cases r with
  | success t => simp [AttemptResult.isFailure] at h
  | failure m => exact ⟨m, rfl⟩

/-- When all three attempts on a key fail, `_try_single_key` returns `None`
and its trace is: attempt 1, a sleep of `retry_delay * 1 = 2` (rate-limited)
or `1` (otherwise), attempt 2, a sleep of `retry_delay * 2 = 4` or `1`,
attempt 3 — with no sleep after the final attempt. -/
lemma trySingleKey_fail_trace (env : Nat → Nat → AttemptResult) (k : Nat)
    (m1 m2 m3 : String) (h1 : env k 1 = .failure m1) (h2 : env k 2 = .failure m2)
    (h3 : env k 3 = .failure m3) :
    trySingleKey env k =
      (none, [.attempt k 1, .sleep (if isRateLimitError m1 then 2 else 1),
              .attempt k 2, .sleep (if isRateLimitError m2 then 4 else 1),
              .attempt k 3]) := by
  simp [trySingleKey, max_retries_per_key, trySingleKeyGo, h1, h2, h3, retry_delay]

/-- Every remote-call attempt in a `_try_single_key` trace uses that key. -/
lemma trySingleKeyGo_attempts_key (env : Nat → Nat → AttemptResult) (k : Nat) :
    ∀ remaining attemptNumber p,
      p ∈ attemptsOf (trySingleKeyGo env k attemptNumber remaining).2 → p.1 = k := by
  intro remaining
  induction remaining with
  | zero => intro a p hp; simp [trySingleKeyGo, attemptsOf] at hp
  | succ r ih =>
    intro a p hp
    cases henv : env k a with
    | success t =>
      simp [trySingleKeyGo, henv, attemptsOf] at hp
      simp [hp]
    | failure m =>
      by_cases hr : 0 < r
      · simp [trySingleKeyGo, henv, hr, attemptsOf] at hp
        rcases hp with hp | hp
        · simp [hp]
        · exact ih (a + 1) p hp
      · simp [trySingleKeyGo, henv, hr, attemptsOf] at hp
        simp [hp]

/-- If some attempt in the remaining window succeeds, `_try_single_key`
returns a response. -/
lemma trySingleKeyGo_some (env : Nat → Nat → AttemptResult) (k : Nat) :
    ∀ remaining attemptNumber,
      (∃ a, attemptNumber ≤ a ∧ a < attemptNumber + remaining ∧ (env k a).isFailure = false) →
      (trySingleKeyGo env k attemptNumber remaining).1.isSome = true := by
  intro remaining
  induction remaining with
  | zero => intro a ⟨w, h1, h2, _⟩; omega
  | succ r ih =>
    intro a ⟨w, hw1, hw2, hw3⟩
    cases henv : env k a with
    | success t => simp [trySingleKeyGo, henv]
    | failure m =>
      have hwa : w ≠ a := by
        intro h
        subst h
        rw [henv] at hw3
        simp [AttemptResult.isFailure] at hw3
      have h0r : 0 < r := by omega
      simp [trySingleKeyGo, henv, h0r]
      exact ih (a + 1) ⟨w, by omega, by omega, hw3⟩

/-- A prefix of keys that all fail all their attempts contributes exactly
its exhaustive attempt list to the `generate_content` trace, and the result
is whatever the remaining keys produce. -/
lemma generateContentKeys_skip (env : Nat → Nat → AttemptResult) (N : Nat) :
    ∀ keys rest : List Nat,
      (∀ k ∈ keys, (trySingleKey env k).1 = none ∧
        attemptsOf (trySingleKey env k).2 = [(k, 1), (k, 2), (k, 3)]) →
      (generateContentKeys env N (keys ++ rest)).1 = (generateContentKeys env N rest).1 ∧
      attemptsOf (generateContentKeys env N (keys ++ rest)).2 =
        fullAttemptList keys ++ attemptsOf (generateContentKeys env N rest).2 := by
  intro keys
  induction keys with
  | nil => intro rest _; simp [fullAttemptList]
  | cons k keys ih =>
    intro rest h
    obtain ⟨hnone, htrace⟩ := h k (by simp)
    have ih' := ih rest (fun k' hk' => h k' (by simp [hk']))
    rcases he : trySingleKey env k with ⟨o, evs⟩
    rw [he] at hnone htrace
    simp at hnone
    subst hnone
    simp only [List.cons_append, generateContentKeys, he]
    simp only [attemptsOf_append]
    simp at htrace
    rw [htrace]
    simp [fullAttemptList, ih'.1, ih'.2]

lemma fullAttemptList_length (keys : List Nat) :
    (fullAttemptList keys).length = 3 * keys.length := by
  induction keys with
  | nil => rfl
  | cons k rest ih => simp [fullAttemptList, ih]; ring

/-- Running the sequence loop over an all-successful prefix followed by a
failing step yields: attempted = prefix length + 1, succeeded = prefix
length, and the failing step is the last (possibly not) invoked index. -/
lemma runSeqGo_first_fail (bad : StepResult) (post : List StepResult)
    (hbad : isFailingStep bad = true) :
    ∀ pre : List StepResult, (∀ s ∈ pre, s = .completed 0) →
    ∀ (i att succ : Nat) (inv : List Nat),
    runSeqGo (pre ++ bad :: post) i att succ inv =
      ⟨i + pre.length, succ + pre.length,
       (if stepInvoked bad then
          (i + pre.length) :: ((List.range' i pre.length).reverse ++ inv)
        else (List.range' i pre.length).reverse ++ inv).reverse⟩ := by
  intro pre
  induction pre with
  | nil =>
    intro _ i att succ inv
    cases bad with
    | notFound => simp [runSeqGo, stepInvoked]
    | crashed m => simp [runSeqGo, stepInvoked]
    | completed rc =>
      have hrc : ¬ rc = 0 := by simpa [isFailingStep] using hbad
      simp [runSeqGo, stepInvoked, hrc]
  | cons s pre ih =>
    intro hpre i att succ inv
    have hs : s = .completed 0 := hpre s (by simp)
    subst hs
    have ih' := ih (fun s' hs' => hpre s' (by simp [hs'])) (i + 1) i (succ + 1) (i :: inv)
    have hstep : runSeqGo ((StepResult.completed 0 :: pre) ++ bad :: post) i att succ inv
        = runSeqGo (pre ++ bad :: post) (i + 1) i (succ + 1) (i :: inv) := by
      simp [runSeqGo]
    rw [hstep, ih']
    have h1 : i + (pre.length + 1) = i + 1 + pre.length := by omega
    have h2 : succ + (pre.length + 1) = succ + 1 + pre.length := by omega
    have hrange : List.range' i (pre.length + 1) = i :: List.range' (i + 1) pre.length :=
      List.range'_succ i pre.length 1
    simp only [List.length_cons, h1, h2, hrange, List.reverse_cons, List.append_assoc,
      List.singleton_append]

/-- The trigger instant resolved by `_get_time_from_user` is strictly in the
future for every current time and every configured time of day. -/
lemma resolveTrigger_future (now : Int) (hour24 minute : Nat) :
    now < resolveTrigger now hour24 minute := by
  unfold resolveTrigger triggerCandidate
  have hmod : usPerDay * (now / usPerDay) + now % usPerDay = now := Int.ediv_add_emod now usPerDay
  have hpos : (0 : Int) < usPerDay := by norm_num [usPerDay]
  have h2 : 0 ≤ now % usPerDay := Int.emod_nonneg now (by norm_num [usPerDay])
  have h3 : now % usPerDay < usPerDay := Int.emod_lt_of_pos now hpos
  have h4 : (0 : Int) ≤ ((hour24 * 3600 + minute * 60 : Nat) : Int) * 1000000 := by positivity
  split <;> nlinarith [hmod, h2, h3, h4]

lemma awaitCleanupGo_counts (tasks : List (Option Nat)) :
    awaitCleanupGo tasks =
      ((tasks.filter (fun t => (futureResult t).2)).length,
       (tasks.filter (fun t => !(futureResult t).2)).length) := by
  induction tasks with
  | nil => rfl
  | cons t rest ih => cases h : (futureResult t).2 <;> simp [awaitCleanupGo, List.filter_cons, h, ih]

/- ------------------------------------------------------------------- -/
/- Claim theorems                                                      -/
/- ------------------------------------------------------------------- -/

/-- C1: for every credential list of length N ≥ 1 in which every attempt on
the first N−1 credentials fails and the Nth credential eventually succeeds,
`generate_content` succeeds, and its remote-call attempts are exactly
attempts 1, 2, 3 (= `max_retries_per_key`) on each of credentials
0, …, N−2 in priority order, all before any attempt with credential N−1
(whose attempts all carry key index N−1). -/
theorem gemini_failover_exhausts_earlier_keys_first (env : Nat → Nat → AttemptResult) (N : Nat)
    (hN : 1 ≤ N)
    (hfail : ∀ k, k < N - 1 → ∀ a, 1 ≤ a → a ≤ max_retries_per_key → (env k a).isFailure = true)
    (hsucc : ∃ a, 1 ≤ a ∧ a ≤ max_retries_per_key ∧ (env (N - 1) a).isFailure = false) :
    (∃ text, (generate_content env N).1 = .ok text) ∧
    attemptsOf (generate_content env N).2 =
      fullAttemptList (List.range (N - 1)) ++ attemptsOf (trySingleKey env (N - 1)).2 ∧
    (∀ p ∈ attemptsOf (trySingleKey env (N - 1)).2, p.1 = N - 1) := by
  obtain ⟨M, rfl⟩ : ∃ M, N = M + 1 := ⟨N - 1, by omega⟩
  simp only [Nat.add_sub_cancel] at hfail hsucc ⊢
  have hkeys : ∀ k ∈ List.range M, (trySingleKey env k).1 = none ∧
      attemptsOf (trySingleKey env k).2 = [(k, 1), (k, 2), (k, 3)] := by
    intro k hk
    rw [List.mem_range] at hk
    obtain ⟨m1, hm1⟩ := failure_exists (hfail k hk 1 (by norm_num) (by norm_num [max_retries_per_key]))
    obtain ⟨m2, hm2⟩ := failure_exists (hfail k hk 2 (by norm_num) (by norm_num [max_retries_per_key]))
    obtain ⟨m3, hm3⟩ := failure_exists (hfail k hk 3 (by norm_num) (by norm_num [max_retries_per_key]))
    rw [trySingleKey_fail_trace env k m1 m2 m3 hm1 hm2 hm3]
    exact ⟨rfl, by simp [attemptsOf]⟩
  have hsome : (trySingleKey env M).1.isSome = true := by
    apply trySingleKeyGo_some env M max_retries_per_key 1
    obtain ⟨a, ha1, ha2, ha3⟩ := hsucc
    rw [max_retries_per_key] at ha2
    exact ⟨a, ha1, by rw [max_retries_per_key]; omega, ha3⟩
  have hsplit := generateContentKeys_skip env (M + 1) (List.range M) [M] hkeys
  rcases he : trySingleKey env M with ⟨o, evs⟩
  rw [he] at hsome
  cases o with
  | none => simp at hsome
  | some text =>
    have hlast : generateContentKeys env (M + 1) [M] = (.ok text, evs) := by
      simp [generateContentKeys, he]
    refine ⟨⟨text, ?_⟩, ?_, ?_⟩
    · rw [show generate_content env (M + 1) = generateContentKeys env (M + 1) (List.range (M + 1)) from rfl,
          show List.range (M + 1) = List.range M ++ [M] from List.range_succ M,
          hsplit.1, hlast]
    · rw [show generate_content env (M + 1) = generateContentKeys env (M + 1) (List.range (M + 1)) from rfl,
          show List.range (M + 1) = List.range M ++ [M] from List.range_succ M,
          hsplit.2, hlast]
    · intro p hp
      apply trySingleKeyGo_attempts_key env M max_retries_per_key 1 p
      rw [show trySingleKeyGo env M 1 max_retries_per_key = trySingleKey env M from rfl, he]
      exact hp

/-- Witness for C1 at the concrete two-key scenario `envFirstKeyDown`. -/
theorem gemini_failover_exhausts_earlier_keys_first_witness :
    (1 ≤ 2) ∧
    ((∃ text, (generate_content envFirstKeyDown 2).1 = .ok text) ∧
     attemptsOf (generate_content envFirstKeyDown 2).2 =
       fullAttemptList (List.range (2 - 1)) ++ attemptsOf (trySingleKey envFirstKeyDown (2 - 1)).2 ∧
     (∀ p ∈ attemptsOf (trySingleKey envFirstKeyDown (2 - 1)).2, p.1 = 2 - 1)) :=
  ⟨by norm_num,
   gemini_failover_exhausts_earlier_keys_first envFirstKeyDown 2 (by norm_num)
     (fun k hk a _ _ => by
       have hk0 : k = 0 := by omega
       subst hk0
       simp [envFirstKeyDown, AttemptResult.isFailure])
     ⟨1, by norm_num, by norm_num [max_retries_per_key],
      by simp [envFirstKeyDown, AttemptResult.isFailure]⟩⟩

/-- C2: when every attempt on every credential fails, `generate_content`
raises the all-keys-failed exception — reporting the total credential count
and the per-credential attempt count — only after trying attempts 1, 2, 3 on
every credential in order, for a total of N × `max_retries_per_key`
remote-call attempts. -/
theorem gemini_all_keys_fail_raises (env : Nat → Nat → AttemptResult) (N : Nat)
    (hfail : ∀ k, k < N → ∀ a, 1 ≤ a → a ≤ max_retries_per_key → (env k a).isFailure = true) :
    (generate_content env N).1 = .error ⟨N, max_retries_per_key⟩ ∧
    attemptsOf (generate_content env N).2 = fullAttemptList (List.range N) ∧
    (attemptsOf (generate_content env N).2).length = N * max_retries_per_key := by
  have hkeys : ∀ k ∈ List.range N, (trySingleKey env k).1 = none ∧
      attemptsOf (trySingleKey env k).2 = [(k, 1), (k, 2), (k, 3)] := by
    intro k hk
    rw [List.mem_range] at hk
    obtain ⟨m1, hm1⟩ := failure_exists (hfail k hk 1 (by norm_num) (by norm_num [max_retries_per_key]))
    obtain ⟨m2, hm2⟩ := failure_exists (hfail k hk 2 (by norm_num) (by norm_num [max_retries_per_key]))
    obtain ⟨m3, hm3⟩ := failure_exists (hfail k hk 3 (by norm_num) (by norm_num [max_retries_per_key]))
    rw [trySingleKey_fail_trace env k m1 m2 m3 hm1 hm2 hm3]
    exact ⟨rfl, by simp [attemptsOf]⟩
  have hmain := generateContentKeys_skip env N (List.range N) [] hkeys
  rw [List.append_nil] at hmain
  refine ⟨?_, ?_, ?_⟩
  · rw [show generate_content env N = generateContentKeys env N (List.range N) from rfl, hmain.1]
    rfl
  · rw [show generate_content env N = generateContentKeys env N (List.range N) from rfl, hmain.2]
    simp [generateContentKeys, attemptsOf]
  · rw [show generate_content env N = generateContentKeys env N (List.range N) from rfl, hmain.2]
    simp [generateContentKeys, attemptsOf, fullAttemptList_length, max_retries_per_key]
    ring

/-- Witness for C2 at the concrete all-failing scenario `envEverythingDown`
with two keys. -/
theorem gemini_all_keys_fail_raises_witness :
    (∀ k, k < 2 → ∀ a, 1 ≤ a → a ≤ max_retries_per_key →
      (envEverythingDown k a).isFailure = true) ∧
    ((generate_content envEverythingDown 2).1 = .error ⟨2, max_retries_per_key⟩ ∧
     attemptsOf (generate_content envEverythingDown 2).2 = fullAttemptList (List.range 2) ∧
     (attemptsOf (generate_content envEverythingDown 2).2).length = 2 * max_retries_per_key) :=
  ⟨fun _ _ _ _ _ => by simp [envEverythingDown, AttemptResult.isFailure],
   gemini_all_keys_fail_raises envEverythingDown 2
     (fun _ _ _ _ _ => by simp [envEverythingDown, AttemptResult.isFailure])⟩

/-- C3: whenever the step sequence consists of an all-successful prefix
followed by a failing step (missing script, nonzero exit status, or a crash
during invocation), `run_script_sequence` halts there: the summary counts
exactly the steps attempted (prefix + the failing step), with the prefix
succeeded, one failed, and no step after the failing one is ever
invoked. -/
theorem scheduler_halts_on_first_failure (pre post : List StepResult) (bad : StepResult)
    (hpre : ∀ s ∈ pre, s = .completed 0) (hbad : isFailingStep bad = true) :
    (run_script_sequence (pre ++ bad :: post)).attempted = pre.length + 1 ∧
    (run_script_sequence (pre ++ bad :: post)).succeeded = pre.length ∧
    failedCount (run_script_sequence (pre ++ bad :: post)) = 1 ∧
    ∀ m ∈ (run_script_sequence (pre ++ bad :: post)).invoked, m ≤ pre.length + 1 := by
  rw [show run_script_sequence (pre ++ bad :: post) = runSeqGo (pre ++ bad :: post) 1 0 0 [] from rfl,
      runSeqGo_first_fail bad post hbad pre hpre 1 0 0 []]
  refine ⟨?_, ?_, ?_, ?_⟩
  · show 1 + pre.length = pre.length + 1
    omega
  · show 0 + pre.length = pre.length
    omega
  · show (1 + pre.length) - (0 + pre.length) = 1
    omega
  · intro m hm
    have hm' : m ∈ (if stepInvoked bad = true then
        (1 + pre.length) :: ((List.range' 1 pre.length).reverse ++ ([] : List Nat))
        else (List.range' 1 pre.length).reverse ++ ([] : List Nat)).reverse := hm
    rw [List.mem_reverse] at hm'
    by_cases hi : stepInvoked bad = true
    · rw [if_pos hi] at hm'
      simp only [List.mem_cons, List.mem_append, List.mem_reverse, List.not_mem_nil, or_false] at hm'
      rcases hm' with hm' | hm'
      · omega
      · have := (List.mem_range'_1).1 hm'
        omega
    · rw [if_neg hi] at hm'
      simp only [List.mem_append, List.mem_reverse, List.not_mem_nil, or_false] at hm'
      have := (List.mem_range'_1).1 hm'
      omega

/-- Witness for C3: the 4-step sequence in which step 1 succeeds and step 2
exits with code 1; the summary is attempted 2, succeeded 1, failed 1, and
steps 3 and 4 are never invoked. -/
theorem scheduler_halts_on_first_failure_witness :
    (∀ s ∈ [StepResult.completed 0], s = StepResult.completed 0) ∧
    isFailingStep (StepResult.completed 1) = true ∧
    ((run_script_sequence ([.completed 0] ++ .completed 1 :: [.completed 0, .completed 0])).attempted = 2 ∧
     (run_script_sequence ([.completed 0] ++ .completed 1 :: [.completed 0, .completed 0])).succeeded = 1 ∧
     failedCount (run_script_sequence ([.completed 0] ++ .completed 1 :: [.completed 0, .completed 0])) = 1 ∧
     ∀ m ∈ (run_script_sequence ([.completed 0] ++ .completed 1 :: [.completed 0, .completed 0])).invoked, m ≤ 2) := by
  refine ⟨by simp, by decide, ?_⟩
  have h := scheduler_halts_on_first_failure [.completed 0] [.completed 0, .completed 0]
    (.completed 1) (by simp) (by decide)
  simpa using h

/-- C4: after a firing loop iteration (the trigger check succeeded and the
cycle ran), the new trigger is exactly the previous trigger plus one day,
computed from the previous trigger value only: the result is the same for
any two loop events — in particular for any cycle duration and any current
time. -/
theorem scheduler_reschedule_adds_one_day (sched : Int) (e e2 : LoopEvent)
    (h : sched ≤ e.timeAtCheck) (h2 : sched ≤ e2.timeAtCheck) :
    loopIterTrigger sched e = sched + usPerDay ∧
    loopIterTrigger sched e = loopIterTrigger sched e2 := by
  unfold loopIterTrigger
  rw [if_pos h, if_pos h2]
  exact ⟨rfl, rfl⟩

/-- Witness for C4: two firing iterations of the same trigger, with very
different cycle durations, produce the same next trigger. -/
theorem scheduler_reschedule_adds_one_day_witness :
    ((0 : Int) ≤ (5 : Int)) ∧ ((0 : Int) ≤ (700 : Int)) ∧
    (loopIterTrigger 0 ⟨5, 90000000000⟩ = 0 + usPerDay ∧
     loopIterTrigger 0 ⟨5, 90000000000⟩ = loopIterTrigger 0 ⟨700, 200000000000⟩) :=
  ⟨by norm_num, by norm_num,
   scheduler_reschedule_adds_one_day 0 ⟨5, 90000000000⟩ ⟨700, 200000000000⟩
     (by norm_num) (by norm_num)⟩

/-- C5 counterexample: the claim says a missing or unparseable persisted
config is a fatal startup error and that the scheduler's trigger time comes
from the persisted TriggerConfig.  In the code, `PantrifiScheduler.start`
never reads schedule_config.json: with the file absent (`none`) and a user
entering 07:30 interactively at time 0, startup succeeds and enters the
loop, and an unparseable file gives the identical result. -/
theorem scheduler_start_ignores_persisted_config_cex :
    schedulerStart none (some (7, 30)) 0 = .started 27000000000 ∧
    schedulerStart (some "this is not valid JSON") (some (7, 30)) 0 =
      schedulerStart none (some (7, 30)) 0 ∧
    schedulerStart none (some (7, 30)) 0 ≠ .exitedNoSchedule := by
  refine ⟨by decide, rfl, by decide⟩

/-- C5 amended: scheduler initialization obtains its trigger time from the
interactive time dialog, not from the persisted config file (which `start`
never reads — the result is independent of the file's contents or absence);
an entered time-of-day is resolved to an absolute strictly-future instant
(today, or tomorrow if already passed), and a cancelled/absent input causes
a graceful exit rather than a crash. -/
theorem scheduler_start_interactive_amended (cfg cfg2 : Option String)
    (u : Option (Nat × Nat)) (now : Int) :
    schedulerStart cfg u now = schedulerStart cfg2 u now ∧
    (∀ hour24 minute, schedulerStart cfg (some (hour24, minute)) now =
        .started (resolveTrigger now hour24 minute) ∧
      now < resolveTrigger now hour24 minute) ∧
    schedulerStart cfg none now = .exitedNoSchedule := by
  refine ⟨rfl, fun hour24 minute => ⟨rfl, resolveTrigger_future now hour24 minute⟩, rfl⟩

/-- C6 counterexample: the post-cycle trigger is NOT strictly in the future
for every cycle duration.  With the trigger at instant 0 reached at time 0
and a cycle that runs for two days, the advanced trigger (0 + one day) is
not later than the time at which it is computed (two days). -/
theorem trigger_after_long_cycle_not_future_cex :
    ¬ ((⟨0, 2 * usPerDay⟩ : LoopEvent).timeAfterCycle <
        loopIterTrigger 0 ⟨0, 2 * usPerDay⟩) := by
  norm_num [loopIterTrigger, usPerDay]

/-- C6 amended: the trigger computed at initialization is strictly in the
future for every current time and configured time-of-day; the trigger
advanced after a cycle is strictly in the future provided the cycle
finishes within one day of the previous trigger (without that bound the
property fails, see the counterexample). -/
theorem trigger_future_amended (now sched : Int) (hour24 minute : Nat) (e : LoopEvent)
    (hcheck : sched ≤ e.timeAtCheck) (hshort : e.timeAfterCycle < sched + usPerDay) :
    now < resolveTrigger now hour24 minute ∧
    e.timeAfterCycle < loopIterTrigger sched e := by
  refine ⟨resolveTrigger_future now hour24 minute, ?_⟩
  unfold loopIterTrigger
  rw [if_pos hcheck]
  exact hshort

/-- Witness for the amended C6 at concrete instants. -/
theorem trigger_future_amended_witness :
    ((0 : Int) ≤ (10 : Int)) ∧ ((2000 : Int) < 0 + usPerDay) ∧
    ((100 : Int) < resolveTrigger 100 7 30 ∧
     (⟨10, 2000⟩ : LoopEvent).timeAfterCycle < loopIterTrigger 0 ⟨10, 2000⟩) :=
  ⟨by norm_num, by norm_num [usPerDay],
   trigger_future_amended 100 0 7 30 ⟨10, 2000⟩ (by norm_num) (by norm_num [usPerDay])⟩

/-- C7: backoff schedule of `_try_single_key`.  A failed attempt that is not
the last for its credential is followed by a sleep of `retry_delay *
attemptNumber` (2, 4 for attempts 1, 2) when the error is rate-limited and
of 1 otherwise; after the last allowed attempt no sleep occurs; and the
attempt numbering — hence the backoff — is the same for every credential
index k, i.e. it resets for each new credential. -/
theorem gemini_backoff_schedule :
    (∀ (env : Nat → Nat → AttemptResult) (k : Nat) (m1 m2 m3 : String),
      env k 1 = .failure m1 → env k 2 = .failure m2 → env k 3 = .failure m3 →
      trySingleKey env k =
        (none, [.attempt k 1, .sleep (if isRateLimitError m1 then 2 else 1),
                .attempt k 2, .sleep (if isRateLimitError m2 then 4 else 1),
                .attempt k 3])) ∧
    (∀ (env : Nat → Nat → AttemptResult) (k : Nat) (m1 t : String),
      env k 1 = .failure m1 → env k 2 = .success t →
      trySingleKey env k =
        (some t, [.attempt k 1, .sleep (if isRateLimitError m1 then 2 else 1),
                  .attempt k 2])) ∧
    (∀ (env : Nat → Nat → AttemptResult) (k : Nat) (m1 m2 t : String),
      env k 1 = .failure m1 → env k 2 = .failure m2 → env k 3 = .success t →
      trySingleKey env k =
        (some t, [.attempt k 1, .sleep (if isRateLimitError m1 then 2 else 1),
                  .attempt k 2, .sleep (if isRateLimitError m2 then 4 else 1),
                  .attempt k 3])) := by
  refine ⟨fun env k m1 m2 m3 h1 h2 h3 => trySingleKey_fail_trace env k m1 m2 m3 h1 h2 h3, ?_, ?_⟩
  · intro env k m1 t h1 h2
    simp [trySingleKey, max_retries_per_key, trySingleKeyGo, h1, h2, retry_delay]
  · intro env k m1 m2 t h1 h2 h3
    simp [trySingleKey, max_retries_per_key, trySingleKeyGo, h1, h2, h3, retry_delay]

/-- Witness for C7: on key 5 with a rate-limited first failure and plain
later failures, the sleeps are exactly 2 (rate-limited, attempt 1) and 1
(other error, attempt 2), with none after attempt 3. -/
theorem gemini_backoff_schedule_witness :
    (envRetryMix 5 1 = .failure "error 429" ∧ envRetryMix 5 2 = .failure "timeout" ∧
     envRetryMix 5 3 = .failure "timeout") ∧
    trySingleKey envRetryMix 5 =
      (none, [.attempt 5 1, .sleep 2, .attempt 5 2, .sleep 1, .attempt 5 3]) := by
  refine ⟨⟨rfl, rfl, rfl⟩, ?_⟩
  have h := gemini_backoff_schedule.1 envRetryMix 5 "error 429" "timeout" "timeout" rfl rfl rfl
  rw [show isRateLimitError "error 429" = true from by decide,
      show isRateLimitError "timeout" = false from by decide] at h
  simpa using h

/-- C8: a teardown target that is in use (PermissionError) on the first two
removal attempts and removable on the third is reported as an overall
success, with backoff sleeps of exactly 1 and 2 time-units between the
attempts; a target whose removal fails with any other exception is
abandoned immediately (no further attempt, no backoff) and reported as
failed. -/
theorem cleanup_retry_in_use_and_abort :
    (∀ (env : Nat → CleanupAttempt) (m0 m1 : String),
      env 0 = .present (.inUse m0) → env 1 = .present (.inUse m1) →
      env 2 = .present .removed →
      cleanup_user_folder env =
        (true, [.settle, .removeAttempt 0, .backoff 1, .settle, .removeAttempt 1,
                .backoff 2, .settle, .removeAttempt 2])) ∧
    (∀ (env : Nat → CleanupAttempt) (m : String),
      env 0 = .present (.unexpected m) →
      cleanup_user_folder env = (false, [.settle, .removeAttempt 0])) := by
  constructor
  · intro env m0 m1 h0 h1 h2
    simp [cleanup_user_folder, cleanupWithRetryGo, h0, h1, h2]
  · intro env m h0
    simp [cleanup_user_folder, cleanupWithRetryGo, h0]

/-- Witness for C8 at the concrete environments `envCleanupBusyTwice` and
`envCleanupBroken`. -/
theorem cleanup_retry_in_use_and_abort_witness :
    (envCleanupBusyTwice 0 = .present (.inUse "folder busy") ∧
     envCleanupBusyTwice 1 = .present (.inUse "folder busy") ∧
     envCleanupBusyTwice 2 = .present .removed ∧
     envCleanupBroken 0 = .present (.unexpected "disk fell off")) ∧
    (cleanup_user_folder envCleanupBusyTwice =
       (true, [.settle, .removeAttempt 0, .backoff 1, .settle, .removeAttempt 1,
               .backoff 2, .settle, .removeAttempt 2]) ∧
     cleanup_user_folder envCleanupBroken = (false, [.settle, .removeAttempt 0])) :=
  ⟨⟨rfl, rfl, rfl, rfl⟩,
   cleanup_retry_in_use_and_abort.1 envCleanupBusyTwice "folder busy" "folder busy" rfl rfl rfl,
   cleanup_retry_in_use_and_abort.2 envCleanupBroken "disk fell off" rfl⟩

/-- C9: the end-of-cycle wait always reaches the executor shutdown and never
turns into a pipeline failure; each `future.result` call blocks for at most
the 30 time-unit per-task budget; and the warnings reported are exactly the
tasks that did not finish within that budget, with every task accounted for
as either completed or warned. -/
theorem cleanup_await_bounded_warning_only (tasks : List (Option Nat)) :
    (finishPipeline tasks).executorShutdown = true ∧
    (finishPipeline tasks).pipelineFailed = false ∧
    (∀ remaining : Option Nat, (futureResult remaining).1 ≤ cleanupWaitTimeout) ∧
    (finishPipeline tasks).warningCount =
      (tasks.filter (fun t => !(futureResult t).2)).length ∧
    (finishPipeline tasks).completedCount + (finishPipeline tasks).warningCount =
      tasks.length := by
  refine ⟨rfl, rfl, ?_, ?_, ?_⟩
  · intro remaining
    cases remaining with
    | none => simp [futureResult]
    | some t =>
      by_cases ht : t ≤ cleanupWaitTimeout
      · simp [futureResult, ht]
      · simp [futureResult, ht]
  · show (awaitCleanupGo tasks).2 = _
    rw [awaitCleanupGo_counts]
  · show (awaitCleanupGo tasks).1 + (awaitCleanupGo tasks).2 = tasks.length
    induction tasks with
    | nil => rfl
    | cons t rest ih => cases h : (futureResult t).2 <;> simp [awaitCleanupGo, h] <;> omega

/-- C10: a target path that does not exist at cleanup time makes
`cleanup_user_folder` return False with no removal attempt and no sleep:
the success branch is guarded by `path.exists()`, so an absent target
silently exhausts the loop and is reported as a failed cleanup. -/
theorem cleanup_missing_path_returns_false (env : Nat → CleanupAttempt)
    (h : ∀ n, env n = .absent) :
    cleanup_user_folder env = (false, []) := by
  simp [cleanup_user_folder, cleanupWithRetryGo, h]

/-- Witness for C10 at the constantly-absent target. -/
theorem cleanup_missing_path_returns_false_witness :
    ((fun _ => CleanupAttempt.absent) 0 = CleanupAttempt.absent) ∧
    cleanup_user_folder (fun _ => CleanupAttempt.absent) = (false, []) :=
  ⟨rfl, cleanup_missing_path_returns_false (fun _ => CleanupAttempt.absent) (fun _ => rfl)⟩
